import Mathlib

/-!
Shallow embedding of the fixed-length windowing core of the bird-PAM data
pipeline (`src/data/dataset_loader.py`): the windower `create_fixed_windows`,
the window-count estimator inside `BirdAudioDataset.__init__`, the split-index
builder, and the species vocabulary.

Waveform samples are modelled as integers (`ℤ`); the claims under study only
use the sample values through equality with each other and with the padding
value `0`, so any numeric carrier works.  Scalar seconds/durations are
modelled as rationals (`ℚ`); the float products appearing in the claims
(`5.0 * 32000`, `2.5 * 32000`, `0.5 * 32000`, ...) are all exact in binary
floating point, so the rational model computes the same sample counts.
-/

namespace BirdPam

/-- Python `int()` applied to a (finite) numeric value: truncation toward
zero.  This is the conversion used on lines 55-56 and 140-142 of
`dataset_loader.py` (`int(window_seconds * sr)` etc.). -/
def pyInt (q : ℚ) : ℤ := if 0 ≤ q then ⌊q⌋ else ⌈q⌉

/-- Python 3 `round()` to the nearest integer, ties to even (banker's
rounding).  Modelled from the spec: the spec (§4.1) states the sample counts
are derived with `round(...)`; the source uses `int(...)`.  This definition
follows the spec's words and exists only to be compared with the source's
derivation (`pyInt`). -/
def pyRound (q : ℚ) : ℤ :=
  if q - ⌊q⌋ < 1/2 then ⌊q⌋
  else if 1/2 < q - ⌊q⌋ then ⌊q⌋ + 1
  else if ⌊q⌋ % 2 = 0 then ⌊q⌋ else ⌊q⌋ + 1

/-- `window_samples = int(window_seconds * sr)` (line 55). -/
def windowSamplesOf (windowSeconds : ℚ) (sr : ℕ) : ℤ := pyInt (windowSeconds * sr)

/-- `hop_samples = int(hop_seconds * sr)` (line 56). -/
def hopSamplesOf (hopSeconds : ℚ) (sr : ℕ) : ℤ := pyInt (hopSeconds * sr)

/-- The Case-3 `while` loop of `create_fixed_windows`:

    while start + window_samples <= audio_length:
        windows.append(waveform[start:start + window_samples])
        start += hop_samples

Returned are the emitted windows together with the value of `start` when the
loop exits.  The recursion is driven by explicit fuel; the callers below pass
`waveform.length + 1` fuel, which reproduces the source exactly whenever
`0 < H`: after `d` iterations `start = d * H ≥ d`, so at depth
`waveform.length + 1` the loop condition is false anyway and the fuel never
matters (`whileLoop_congr_fuel` below).  When `H = 0` the source loop does
not terminate; the fuelled model instead stops after the fuel runs out, and
no theorem in this file relies on the `H = 0` behaviour. -/
def whileLoop (wf : List ℤ) (W H : ℕ) : ℕ → ℕ → List (List ℤ) × ℕ
  | start, 0 => ([], start)
  | start, fuel + 1 =>
    if start + W ≤ wf.length then
      let rest := whileLoop wf W H (start + H) fuel
      ((wf.drop start).take W :: rest.1, rest.2)
    else ([], start)

/-- `create_fixed_windows` (lines 42-83 of `dataset_loader.py`), with the
window and hop sizes already converted to sample counts:

* Case 1 (`audio_length < window_samples`): return the waveform zero-padded
  on the right to `window_samples` (`np.zeros(window_samples)` then
  `padded[:audio_length] = waveform`).
* Case 2 (`audio_length <= window_samples + hop_samples // 2`): return
  `[waveform[:window_samples]]`.
* Case 3: run the sliding loop; afterwards,
  `if start < audio_length and len(windows) > 0`, append
  `waveform[-window_samples:]`.  For `0 < W ≤ audio_length` the Python slice
  `waveform[-W:]` is the last `W` samples, i.e. `wf.drop (L - W)`; for
  `W = 0` Python's `waveform[-0:]` is the whole waveform, which the
  `if W = 0` branch mirrors (that branch is unreachable for the positive
  window sizes the claims use). -/
def createFixedWindowsCore (wf : List ℤ) (W H : ℕ) : List (List ℤ) :=
  if wf.length < W then [wf ++ List.replicate (W - wf.length) 0]
  else if wf.length ≤ W + H / 2 then [wf.take W]
  else
    let p := whileLoop wf W H 0 (wf.length + 1)
    if p.2 < wf.length ∧ p.1 ≠ [] then
      p.1 ++ [if W = 0 then wf else wf.drop (wf.length - W)]
    else p.1

/-- `create_fixed_windows(waveform, sr, window_seconds, hop_seconds)`:
derives `window_samples`/`hop_samples` by `int(...)` truncation and windows
the waveform.  `Int.toNat` is the identity on the non-negative products that
every claim uses (positive seconds, positive sample rate); a negative derived
count would be handed to `np.zeros` / slicing, which no claim exercises. -/
def createFixedWindows (wf : List ℤ) (sr : ℕ) (windowSeconds hopSeconds : ℚ) :
    List (List ℤ) :=
  createFixedWindowsCore wf (windowSamplesOf windowSeconds sr).toNat
    (hopSamplesOf hopSeconds sr).toNat

/-- The window-count estimator of `BirdAudioDataset.__init__`
(lines 144-153), already in sample counts:

    if audio_samples < window_samples:           num_windows = 1
    elif audio_samples <= window_samples + hop_samples // 2:  num_windows = 1
    else:  num_windows = 1 + (audio_samples - window_samples + hop_samples - 1) // hop_samples
-/
def estimatorNumWindows (audioSamples W H : ℕ) : ℕ :=
  if audioSamples < W then 1
  else if audioSamples ≤ W + H / 2 then 1
  else 1 + (audioSamples - W + H - 1) / H

/-- `audio_samples = int(duration * self.sample_rate)` (line 143). -/
def datasetAudioSamples (durationS : ℚ) (sr : ℕ) : ℕ := (pyInt (durationS * sr)).toNat

/-- The per-clip window count the index builder computes from the clip's
stored duration alone (lines 140-153). -/
def datasetNumWindows (durationS : ℚ) (sr : ℕ) (windowSeconds hopSeconds : ℚ) : ℕ :=
  estimatorNumWindows (datasetAudioSamples durationS sr)
    (windowSamplesOf windowSeconds sr).toNat (hopSamplesOf hopSeconds sr).toNat

/-- One metadata row of the split subset: `clip_id`, `species_code`,
`filename`, `duration_s`. -/
structure Row where
  clipId : String
  speciesCode : String
  filename : String
  durationS : ℚ
deriving DecidableEq

/-- Index entries contributed by one subset row at dataframe position `i`
(`BirdAudioDataset.__init__`, lines 131-156): a missing backing file skips
the row entirely (`continue`); otherwise, with windowing enabled, entries
`(i, 0) ... (i, num_windows - 1)` are appended, and without windowing the
single entry `(i, 0)`. -/
def buildRowEntries (present : String → Bool) (useWindowing : Bool) (sr : ℕ)
    (windowSeconds hopSeconds : ℚ) (i : ℕ) (r : Row) : List (ℕ × ℕ) :=
  if present r.filename then
    if useWindowing then
      (List.range (datasetNumWindows r.durationS sr windowSeconds hopSeconds)).map
        (fun w => (i, w))
    else [(i, 0)]
  else []

/-- The index-building loop of `__init__`, iterating the subset rows in
order with their dataframe positions `i, i+1, ...` (after `reset_index` the
positions are `0..N-1`). -/
def buildIndexAux (present : String → Bool) (useWindowing : Bool) (sr : ℕ)
    (windowSeconds hopSeconds : ℚ) : ℕ → List Row → List (ℕ × ℕ)
  | _, [] => []
  | i, r :: rs =>
    buildRowEntries present useWindowing sr windowSeconds hopSeconds i r ++
      buildIndexAux present useWindowing sr windowSeconds hopSeconds (i + 1) rs

/-- `self.index` as built by `BirdAudioDataset.__init__`. -/
def buildIndex (rows : List Row) (present : String → Bool) (useWindowing : Bool)
    (sr : ℕ) (windowSeconds hopSeconds : ℚ) : List (ℕ × ℕ) :=
  buildIndexAux present useWindowing sr windowSeconds hopSeconds 0 rows

/-- The messages printed by the index-building loop of
`BirdAudioDataset.__init__`: the missing-file branch is a bare `continue`
with no `print` and no counter, and the present-file branch prints nothing
either, so each row contributes no output.  (`prepare_split` does print a
missing-file warning, but the Dataset index builder does not.) -/
def buildIndexLog : List Row → List String
  | [] => []
  | _ :: rs => ([] : List String) ++ buildIndexLog rs

/-- The clip id recorded for each built index entry (each entry's first
component is a dataframe position into the subset rows). -/
def indexClipIds (rows : List Row) (present : String → Bool) (useWindowing : Bool)
    (sr : ℕ) (windowSeconds hopSeconds : ℚ) : List String :=
  (buildIndex rows present useWindowing sr windowSeconds hopSeconds).filterMap
    (fun e => (rows.get? e.1).map Row.clipId)

/-- `pandas.Series.unique`: distinct values in first-occurrence order. -/
def pdUnique : List String → List String
  | [] => []
  | a :: l => a :: pdUnique (l.filter (fun b => b != a))
termination_by l => l.length
decreasing_by
  simpa using Nat.lt_succ_of_le (List.length_filter_le _ _)

/-- `self.species_list = sorted(self.subset["species_code"].unique())`
(line 127): the sorted distinct species codes over all subset rows,
including rows whose backing files are missing (the file check only happens
later, in the index loop). -/
def speciesList (rows : List Row) : List String :=
  List.insertionSort (fun a b => a ≤ b) (pdUnique (rows.map Row.speciesCode))

/-- `self.species_to_idx = {sp: i for i, sp in enumerate(self.species_list)}`
(line 128). -/
def speciesToIdx (rows : List Row) (sp : String) : ℕ := (speciesList rows).indexOf sp

/-! ### Characterization of the Case-3 loop -/

/-- The exit value of `start` is the initial value plus one hop per emitted
window. -/
theorem whileLoop_snd (wf : List ℤ) (W H : ℕ) : ∀ fuel start,
    (whileLoop wf W H start fuel).2 =
      start + H * (whileLoop wf W H start fuel).1.length := by
  intro fuel
  induction fuel with
  | zero => intro start; simp [whileLoop]
  | succ n ih =>
    intro start
    by_cases h : start + W ≤ wf.length
    · simp only [whileLoop, if_pos h, List.length_cons, ih (start + H), Nat.mul_succ]
      omega
    · simp [whileLoop, if_neg h]

/-- Any fuel larger than the remaining distance to the end of the waveform
produces the same result: the loop has stabilized, i.e. the source's
unfuelled `while` loop terminates with this value whenever `0 < H`. -/
theorem whileLoop_congr_fuel (wf : List ℤ) (W H : ℕ) (hH : 0 < H) :
    ∀ fuelA fuelB start, wf.length < start + fuelA → wf.length < start + fuelB →
      whileLoop wf W H start fuelA = whileLoop wf W H start fuelB := by
  intro fuelA
  induction fuelA with
  | zero =>
    intro fuelB start hA hB
    cases fuelB with
    | zero => rfl
    | succ m =>
      have h : ¬ start + W ≤ wf.length := by omega
      simp [whileLoop, if_neg h]
  | succ n ih =>
    intro fuelB start hA hB
    cases fuelB with
    | zero =>
      have h : ¬ start + W ≤ wf.length := by omega
      simp [whileLoop, if_neg h]
    | succ m =>
      by_cases h : start + W ≤ wf.length
      · simp only [whileLoop, if_pos h]
        rw [ih m (start + H) (by omega) (by omega)]
      · simp [whileLoop, if_neg h]

/-- Closed form for the number of windows the loop emits. -/
theorem whileLoop_length (wf : List ℤ) (W H : ℕ) (hH : 0 < H) :
    ∀ fuel start, wf.length < start + fuel →
      (whileLoop wf W H start fuel).1.length =
        if start + W ≤ wf.length then (wf.length - W - start) / H + 1 else 0 := by
  intro fuel
  induction fuel with
  | zero =>
    intro start hfuel
    have h : ¬ start + W ≤ wf.length := by omega
    simp [whileLoop, if_neg h]
  | succ n ih =>
    intro start hfuel
    by_cases h : start + W ≤ wf.length
    · simp only [whileLoop, if_pos h, List.length_cons]
      rw [ih (start + H) (by omega)]
      by_cases h2 : start + H + W ≤ wf.length
      · rw [if_pos h2]
        have hle : H ≤ wf.length - W - start := by omega
        have heq : wf.length - W - (start + H) = wf.length - W - start - H := by omega
        rw [heq, ← Nat.div_eq_sub_div hH hle]
      · rw [if_neg h2]
        have hlt : wf.length - W - start < H := by omega
        rw [Nat.div_eq_of_lt hlt]
    · simp [whileLoop, if_neg h]

/-- Every window the loop emits has length exactly `W`. -/
theorem whileLoop_mem_length (wf : List ℤ) (W H : ℕ) :
    ∀ fuel start w, w ∈ (whileLoop wf W H start fuel).1 → w.length = W := by
  intro fuel
  induction fuel with
  | zero => intro start w hw; simp [whileLoop] at hw
  | succ n ih =>
    intro start w hw
    by_cases h : start + W ≤ wf.length
    · simp only [whileLoop, if_pos h, List.mem_cons] at hw
      rcases hw with hw | hw
      · subst hw
        simp only [List.length_take, List.length_drop]
        omega
      · exact ih (start + H) w hw
    · simp [whileLoop, if_neg h] at hw

/-! ### The three cases of `create_fixed_windows` -/

/-- Case 1: audio shorter than the window is zero-padded. -/
theorem core_caseA (wf : List ℤ) (W H : ℕ) (h : wf.length < W) :
    createFixedWindowsCore wf W H = [wf ++ List.replicate (W - wf.length) 0] := by
  simp [createFixedWindowsCore, if_pos h]

/-- Case 2: audio within half a hop of the window length is cropped. -/
theorem core_caseB (wf : List ℤ) (W H : ℕ) (h1 : W ≤ wf.length)
    (h2 : wf.length ≤ W + H / 2) :
    createFixedWindowsCore wf W H = [wf.take W] := by
  have h1' : ¬ wf.length < W := by omega
  simp [createFixedWindowsCore, if_neg h1', if_pos h2]

/-- Case 3 decomposed: the loop windows, followed by the tail window exactly
when the exit value of `start` (one hop past the last emitted start, namely
`H * ((L - W) / H + 1)`) is still short of the end of the signal. -/
theorem core_caseC_eq (wf : List ℤ) (W H : ℕ) (hH : 0 < H)
    (hC : W + H / 2 < wf.length) :
    createFixedWindowsCore wf W H =
      (whileLoop wf W H 0 (wf.length + 1)).1 ++
        (if H * ((wf.length - W) / H + 1) < wf.length then
          [if W = 0 then wf else wf.drop (wf.length - W)] else []) := by
  have h1 : ¬ wf.length < W := by omega
  have h2 : ¬ wf.length ≤ W + H / 2 := by omega
  have hW : 0 + W ≤ wf.length := by omega
  have hlen : (whileLoop wf W H 0 (wf.length + 1)).1.length =
      (wf.length - W) / H + 1 := by
    rw [whileLoop_length wf W H hH (wf.length + 1) 0 (by omega), if_pos hW,
      Nat.sub_zero]
  have hsnd : (whileLoop wf W H 0 (wf.length + 1)).2 =
      H * ((wf.length - W) / H + 1) := by
    rw [whileLoop_snd, hlen, Nat.zero_add]
  have hne : (whileLoop wf W H 0 (wf.length + 1)).1 ≠ [] := by
    rw [← List.length_pos_iff_ne_nil, hlen]; exact Nat.succ_pos _
  simp only [createFixedWindowsCore, if_neg h1, if_neg h2]
  by_cases ht : H * ((wf.length - W) / H + 1) < wf.length
  · rw [if_pos ht, if_pos ⟨by rw [hsnd]; exact ht, hne⟩]
  · rw [if_neg ht, if_neg (by rw [hsnd]; tauto), List.append_nil]

/-- Case 3 window count: the loop's `(L - W) / H + 1` windows plus the tail
window when the exit `start` is short of the end. -/
theorem core_caseC_length (wf : List ℤ) (W H : ℕ) (hH : 0 < H)
    (hC : W + H / 2 < wf.length) :
    (createFixedWindowsCore wf W H).length =
      (wf.length - W) / H + 1 +
        (if H * ((wf.length - W) / H + 1) < wf.length then 1 else 0) := by
  rw [core_caseC_eq wf W H hH hC, List.length_append,
    whileLoop_length wf W H hH (wf.length + 1) 0 (by omega),
    if_pos (by omega : 0 + W ≤ wf.length), Nat.sub_zero]
  by_cases ht : H * ((wf.length - W) / H + 1) < wf.length
  · rw [if_pos ht, if_pos ht]; rfl
  · rw [if_neg ht, if_neg ht]; rfl

/-- The estimator always predicts at least one window. -/
theorem estimatorNumWindows_pos (L W H : ℕ) : 0 < estimatorNumWindows L W H := by
  unfold estimatorNumWindows
  split_ifs
  · omega
  · omega
  · exact Nat.add_pos_left Nat.one_pos _

/-! ### Evaluating the `int(...)` derivations at the configured values -/

/-- Python `int()` is the floor on non-negative values. -/
theorem pyInt_nonneg (q : ℚ) (h : 0 ≤ q) : pyInt q = ⌊q⌋ := if_pos h

/-- `int()` of a whole number. -/
theorem pyInt_natCast (n : ℕ) : pyInt n = n := by
  rw [pyInt_nonneg _ (by positivity)]
  exact_mod_cast Int.floor_natCast n

/-- Evaluation rule for `window_samples`/`hop_samples` when the product of
seconds and sample rate is the whole number `n`. -/
theorem pyInt_toNat_eq (q : ℚ) (n : ℕ) (h : q = n) : (pyInt q).toNat = n := by
  rw [h, pyInt_natCast, Int.toNat_natCast]

theorem windowSamples_std : (windowSamplesOf 5 32000).toNat = 160000 := by
  unfold windowSamplesOf
  exact pyInt_toNat_eq _ _ (by norm_num)

theorem hopSamples_std : (hopSamplesOf (5/2) 32000).toNat = 80000 := by
  unfold hopSamplesOf
  exact pyInt_toNat_eq _ _ (by norm_num)

/-- The windower at the configured `sample_rate=32000, window_seconds=5.0,
hop_seconds=2.5` works with `window_samples=160000, hop_samples=80000`. -/
theorem createFixedWindows_std (wf : List ℤ) :
    createFixedWindows wf 32000 5 (5/2) = createFixedWindowsCore wf 160000 80000 := by
  unfold createFixedWindows
  rw [windowSamples_std, hopSamples_std]

/-- The builder's per-clip window count at the configured values, reduced to
the estimator on whole sample counts. -/
theorem datasetNumWindows_std (d : ℚ) (n : ℕ) (h : d * ((32000:ℕ):ℚ) = n) :
    datasetNumWindows d 32000 5 (5/2) = estimatorNumWindows n 160000 80000 := by
  unfold datasetNumWindows datasetAudioSamples
  rw [windowSamples_std, hopSamples_std, pyInt_toNat_eq _ _ h]

/-! ### C5: Case A zero-padding -/

/-- C5.  A waveform shorter than the window yields exactly one window of
length `window_samples` whose prefix is the input and whose remainder is
zero; in particular a 3.0 s waveform (96000 samples) at 32000 Hz with a
5.0 s window yields one window of 160000 samples ending in 64000 zeros. -/
theorem caseA_zero_padding :
    (∀ (wf : List ℤ) (W H : ℕ), wf.length < W →
      ∃ w, createFixedWindowsCore wf W H = [w] ∧ w.length = W ∧
        w.take wf.length = wf ∧
        w.drop wf.length = List.replicate (W - wf.length) 0) ∧
    (∀ wf : List ℤ, wf.length = 96000 →
      ∃ w, createFixedWindows wf 32000 5 (5/2) = [w] ∧ w.length = 160000 ∧
        w.take 96000 = wf ∧ w.drop 96000 = List.replicate 64000 0) := by
  have main : ∀ (wf : List ℤ) (W H : ℕ), wf.length < W →
      ∃ w, createFixedWindowsCore wf W H = [w] ∧ w.length = W ∧
        w.take wf.length = wf ∧
        w.drop wf.length = List.replicate (W - wf.length) 0 := by
    intro wf W H h
    refine ⟨wf ++ List.replicate (W - wf.length) 0, core_caseA wf W H h, ?_, ?_, ?_⟩
    · rw [List.length_append, List.length_replicate]; omega
    · exact List.take_left wf _
    · exact List.drop_left wf _
  refine ⟨main, ?_⟩
  intro wf h
  obtain ⟨w, hw, hwlen, hwtake, hwdrop⟩ :=
    main wf 160000 80000 (by omega)
  refine ⟨w, ?_, by omega, ?_, ?_⟩
  · rw [createFixedWindows_std, hw]
  · rw [h] at hwtake; exact hwtake
  · rw [h] at hwdrop
    norm_num at hwdrop
    exact hwdrop

/-- C5 witness: the instance at a one-sample waveform with a 3-sample
window, and at a concrete 96000-sample waveform. -/
theorem caseA_zero_padding_check :
    ((([5] : List ℤ).length < 3) ∧
      ∃ w, createFixedWindowsCore [5] 3 1 = [w] ∧ w.length = 3 ∧
        w.take ([5] : List ℤ).length = [5] ∧
        w.drop ([5] : List ℤ).length = List.replicate (3 - ([5] : List ℤ).length) 0) ∧
    ((List.replicate 96000 (1:ℤ)).length = 96000 ∧
      ∃ w, createFixedWindows (List.replicate 96000 (1:ℤ)) 32000 5 (5/2) = [w] ∧
        w.length = 160000 ∧ w.take 96000 = List.replicate 96000 (1:ℤ) ∧
        w.drop 96000 = List.replicate 64000 0) :=
  ⟨⟨by decide, caseA_zero_padding.1 [5] 3 1 (by decide)⟩,
   ⟨by rw [List.length_replicate], caseA_zero_padding.2 (List.replicate 96000 (1:ℤ))
     (by rw [List.length_replicate])⟩⟩

/-! ### C6: no ConfigError validation exists -/

/-- C6 counterexample.  With `window_seconds = 0` the derived
`window_samples` is `0` (not a positive integer), yet the windowing
operation does not fail at configuration-validation time: it proceeds and
returns an ordinary (degenerate) window list. -/
theorem no_config_error_on_degenerate_window :
    windowSamplesOf 0 32000 = 0 ∧ createFixedWindows [3] 32000 0 (5/2) = [[]] := by
  have h0 : windowSamplesOf 0 32000 = 0 := by
    unfold windowSamplesOf
    rw [pyInt_nonneg _ (by norm_num)]
    norm_num
  refine ⟨h0, ?_⟩
  unfold createFixedWindows
  rw [h0, hopSamples_std]
  decide

/-- C6 amended.  The code performs no window/hop validation: with a derived
`window_samples = 0` (any positive hop), `create_fixed_windows` proceeds
normally and returns a non-empty list of zero-length windows instead of
raising a `ConfigError`.  (With `hop_samples = 0` and long audio the Case-3
loop would not terminate at all, again without any `ConfigError`.) -/
theorem degenerate_window_zero_length (wf : List ℤ) (H : ℕ) (hH : 0 < H) :
    createFixedWindowsCore wf 0 H ≠ [] ∧
      ∀ w ∈ createFixedWindowsCore wf 0 H, w.length = 0 := by
  by_cases hB : wf.length ≤ 0 + H / 2
  · rw [core_caseB wf 0 H (Nat.zero_le _) hB]
    refine ⟨by simp, ?_⟩
    intro w hw
    simp only [List.mem_singleton] at hw
    subst hw
    simp
  · have hC : 0 + H / 2 < wf.length := by omega
    rw [core_caseC_eq wf 0 H hH hC]
    have hdm := Nat.div_add_mod wf.length H
    have hmod := Nat.mod_lt wf.length hH
    have htail : ¬ H * ((wf.length - 0) / H + 1) < wf.length := by
      rw [Nat.sub_zero, Nat.mul_succ]
      omega
    rw [if_neg htail, List.append_nil]
    constructor
    · rw [← List.length_pos_iff_ne_nil,
        whileLoop_length wf 0 H hH (wf.length + 1) 0 (by omega),
        if_pos (by omega)]
      exact Nat.succ_pos _
    · intro w hw
      exact whileLoop_mem_length wf 0 H (wf.length + 1) 0 w hw

/-- C6 amended witness. -/
theorem degenerate_window_zero_length_check :
    (0 < 2) ∧ (createFixedWindowsCore [4, 5] 0 2 ≠ [] ∧
      ∀ w ∈ createFixedWindowsCore [4, 5] 0 2, w.length = 0) :=
  ⟨by decide, degenerate_window_zero_length [4, 5] 2 (by decide)⟩

/-! ### C7: the sample counts are truncated, not rounded -/

/-- C7 counterexample.  With the positive configuration
`window_seconds = 3/2, sample_rate = 1` the source derives
`window_samples = int(1.5) = 1`, while rounding to the nearest integer (the
spec's `round`) gives `2`: the derivation is not round-to-nearest. -/
theorem sample_derivation_not_round :
    (0:ℚ) < 3/2 ∧ windowSamplesOf (3/2) 1 = 1 ∧ pyRound ((3/2) * ((1:ℕ):ℚ)) = 2 := by
  have hq : ((3:ℚ)/2) * ((1:ℕ):ℚ) = 3/2 := by norm_num
  refine ⟨by norm_num, ?_, ?_⟩
  · unfold windowSamplesOf
    rw [pyInt_nonneg _ (by rw [hq]; norm_num), hq]
    norm_num
  · unfold pyRound
    rw [hq]
    norm_num

/-- C7 amended.  For non-negative seconds the windower and the index builder
derive the sample counts by the same `int()` truncation, which on these
non-negative products is the floor (not round-to-nearest):
`window_samples = ⌊window_seconds * sample_rate⌋`, and likewise for the hop
and for the builder's `audio_samples`. -/
theorem sample_derivation_truncates (ws hs : ℚ) (sr : ℕ) (hws : 0 ≤ ws) (hhs : 0 ≤ hs) :
    windowSamplesOf ws sr = ⌊ws * sr⌋ ∧ hopSamplesOf hs sr = ⌊hs * sr⌋ ∧
    (∀ wf, createFixedWindows wf sr ws hs =
      createFixedWindowsCore wf (windowSamplesOf ws sr).toNat
        (hopSamplesOf hs sr).toNat) ∧
    (∀ d : ℚ, datasetNumWindows d sr ws hs =
      estimatorNumWindows (datasetAudioSamples d sr) (windowSamplesOf ws sr).toNat
        (hopSamplesOf hs sr).toNat) :=
  ⟨pyInt_nonneg _ (mul_nonneg hws (Nat.cast_nonneg sr)),
   pyInt_nonneg _ (mul_nonneg hhs (Nat.cast_nonneg sr)),
   fun _ => rfl, fun _ => rfl⟩

/-! ### C2: the tail-append condition -/

/-- C2 evaluation at the failing input.  With `window_samples = 4`,
`hop_samples = 2` and an 8-sample waveform, the loop emits windows starting
at 0, 2 and 4; the last emitted window `[4,5,6,7]` ends exactly at the end
of the signal, yet — because the code's condition is
`start < audio_length` (`6 < 8`) rather than "the last emitted window's end
did not reach the end" — an extra, duplicate final window `[4,5,6,7]` is
appended. -/
theorem tail_append_condition_eval :
    createFixedWindowsCore [0, 1, 2, 3, 4, 5, 6, 7] 4 2 =
      [[0, 1, 2, 3], [2, 3, 4, 5], [4, 5, 6, 7], [4, 5, 6, 7]] := by decide

/-! ### C3: entry ordinals versus actual window count -/

/-- C3 counterexample.  With hop larger than the window
(`window_samples = 2, hop_samples = 5`) and a 5-sample clip, the builder
produces the entry ordinal 1 (the estimator predicts 2 windows), but the
windower returns only 1 window, so materializing that entry reads
`windows[1]` out of range: the estimator's prediction can exceed the actual
window count. -/
theorem entry_ordinal_unsafe_hop_gt_window :
    1 < estimatorNumWindows 5 2 5 ∧
      ¬ 1 < (createFixedWindowsCore [0, 1, 2, 3, 4] 2 5).length := by decide

/-- In Case 3, with `hop_samples ≤ window_samples`, the estimator never
predicts more windows than the windower emits. -/
theorem estimator_le_actual_caseC (L W H : ℕ) (hH : 0 < H) (hHW : H ≤ W)
    (hC : W + H / 2 < L) :
    1 + (L - W + H - 1) / H ≤
      (L - W) / H + 1 + (if H * ((L - W) / H + 1) < L then 1 else 0) := by
  have hWL : W < L := by omega
  have hdm : H * ((L - W) / H) + (L - W) % H = L - W := Nat.div_add_mod (L - W) H
  have hmod : (L - W) % H < H := Nat.mod_lt _ hH
  by_cases hr : (L - W) % H = 0
  · have hnum : L - W + H - 1 = H * ((L - W) / H) + (H - 1) := by omega
    have hceil : (L - W + H - 1) / H = (L - W) / H := by
      rw [hnum, Nat.mul_add_div hH,
        Nat.div_eq_of_lt (show H - 1 < H by omega), Nat.add_zero]
    rw [hceil]
    split_ifs <;> omega
  · have hnum : L - W + H - 1 = H * ((L - W) / H + 1) + ((L - W) % H - 1) := by
      rw [Nat.mul_succ]; omega
    have hceil : (L - W + H - 1) / H = (L - W) / H + 1 := by
      rw [hnum, Nat.mul_add_div hH,
        Nat.div_eq_of_lt (show (L - W) % H - 1 < H by omega), Nat.add_zero]
    have htail : H * ((L - W) / H + 1) < L := by
      rw [Nat.mul_succ]; omega
    rw [hceil, if_pos htail]
    omega

/-- C3 amended.  Provided `hop_samples ≤ window_samples` (true of the
configured `hop=2.5 s, window=5.0 s`), every window ordinal the index
builder produces for a clip — i.e. every `k` below the estimator's
prediction for the clip's sample count — is strictly below the number of
windows `create_fixed_windows` actually returns for a waveform of exactly
that many samples, so `windows[window_idx]` in `__getitem__` is in bounds.
Without that proviso the claim fails (`entry_ordinal_unsafe_hop_gt_window`). -/
theorem entry_ordinal_safe_of_hop_le_window (wf : List ℤ) (W H k : ℕ)
    (hH : 0 < H) (hHW : H ≤ W)
    (hk : k < estimatorNumWindows wf.length W H) :
    k < (createFixedWindowsCore wf W H).length := by
  unfold estimatorNumWindows at hk
  by_cases hA : wf.length < W
  · rw [if_pos hA] at hk
    rw [core_caseA wf W H hA]
    simpa using hk
  · rw [if_neg hA] at hk
    by_cases hB : wf.length ≤ W + H / 2
    · rw [if_pos hB] at hk
      rw [core_caseB wf W H (by omega) hB]
      simpa using hk
    · rw [if_neg hB] at hk
      have hC : W + H / 2 < wf.length := by omega
      rw [core_caseC_length wf W H hH hC]
      have hle := estimator_le_actual_caseC wf.length W H hH hHW hC
      omega

/-- C3 amended witness: a 5-sample clip with `window_samples = 2`,
`hop_samples = 1`; the estimator predicts 4 windows and ordinal 3 is in
bounds. -/
theorem entry_ordinal_safe_check :
    (0 < 1 ∧ 1 ≤ 2 ∧ 3 < estimatorNumWindows ([0, 1, 2, 3, 4] : List ℤ).length 2 1) ∧
      3 < (createFixedWindowsCore [0, 1, 2, 3, 4] 2 1).length :=
  ⟨⟨by decide, by decide, by decide⟩,
   entry_ordinal_safe_of_hop_le_window [0, 1, 2, 3, 4] 2 1 3 (by decide) (by decide)
     (by decide)⟩

/-! ### C1: estimator versus windower at the six durations -/

/-- C1 evaluation.  At `sample_rate=32000, window=5.0 s, hop=2.5 s` the
windower's count equals the builder's duration-only count for durations
0.5, 3.0, 5.0, 5.2 and 6.0 s (all sides equal 1), but at 15.0 s (480000
samples) the windower returns 6 windows — the tail-append duplicates the
last loop window — while the builder's estimator computes 5. -/
theorem estimator_windower_agreement_eval :
    (∀ wf : List ℤ, wf.length = 16000 →
      (createFixedWindows wf 32000 5 (5/2)).length = datasetNumWindows (1/2) 32000 5 (5/2)) ∧
    (∀ wf : List ℤ, wf.length = 96000 →
      (createFixedWindows wf 32000 5 (5/2)).length = datasetNumWindows 3 32000 5 (5/2)) ∧
    (∀ wf : List ℤ, wf.length = 160000 →
      (createFixedWindows wf 32000 5 (5/2)).length = datasetNumWindows 5 32000 5 (5/2)) ∧
    (∀ wf : List ℤ, wf.length = 166400 →
      (createFixedWindows wf 32000 5 (5/2)).length = datasetNumWindows (26/5) 32000 5 (5/2)) ∧
    (∀ wf : List ℤ, wf.length = 192000 →
      (createFixedWindows wf 32000 5 (5/2)).length = datasetNumWindows 6 32000 5 (5/2)) ∧
    (∀ wf : List ℤ, wf.length = 480000 →
      (createFixedWindows wf 32000 5 (5/2)).length = 6 ∧
        datasetNumWindows 15 32000 5 (5/2) = 5) := by
  have d05 : datasetNumWindows (1/2) 32000 5 (5/2) = 1 := by
    rw [datasetNumWindows_std (1/2) 16000 (by norm_num)]; decide
  have d3 : datasetNumWindows 3 32000 5 (5/2) = 1 := by
    rw [datasetNumWindows_std 3 96000 (by norm_num)]; decide
  have d5 : datasetNumWindows 5 32000 5 (5/2) = 1 := by
    rw [datasetNumWindows_std 5 160000 (by norm_num)]; decide
  have d52 : datasetNumWindows (26/5) 32000 5 (5/2) = 1 := by
    rw [datasetNumWindows_std (26/5) 166400 (by norm_num)]; decide
  have d6 : datasetNumWindows 6 32000 5 (5/2) = 1 := by
    rw [datasetNumWindows_std 6 192000 (by norm_num)]; decide
  have d15 : datasetNumWindows 15 32000 5 (5/2) = 5 := by
    rw [datasetNumWindows_std 15 480000 (by norm_num)]; decide
  refine ⟨?_, ?_, ?_, ?_, ?_, ?_⟩
  · intro wf h
    rw [createFixedWindows_std, core_caseA wf 160000 80000 (by omega), d05]
    rfl
  · intro wf h
    rw [createFixedWindows_std, core_caseA wf 160000 80000 (by omega), d3]
    rfl
  · intro wf h
    rw [createFixedWindows_std, core_caseB wf 160000 80000 (by omega) (by omega), d5]
    rfl
  · intro wf h
    rw [createFixedWindows_std, core_caseB wf 160000 80000 (by omega) (by omega), d52]
    rfl
  · intro wf h
    rw [createFixedWindows_std, core_caseB wf 160000 80000 (by omega) (by omega), d6]
    rfl
  · intro wf h
    refine ⟨?_, d15⟩
    rw [createFixedWindows_std,
      core_caseC_length wf 160000 80000 (by norm_num) (by omega), h]
    decide

/-- C1 witness: the divergent 15.0 s case at a concrete 480000-sample
waveform, together with one agreeing duration (3.0 s). -/
theorem estimator_windower_agreement_eval_check :
    ((List.replicate 480000 (0:ℤ)).length = 480000 ∧
      (createFixedWindows (List.replicate 480000 (0:ℤ)) 32000 5 (5/2)).length = 6 ∧
        datasetNumWindows 15 32000 5 (5/2) = 5) ∧
    ((List.replicate 96000 (0:ℤ)).length = 96000 ∧
      (createFixedWindows (List.replicate 96000 (0:ℤ)) 32000 5 (5/2)).length =
        datasetNumWindows 3 32000 5 (5/2)) :=
  ⟨⟨by rw [List.length_replicate],
    estimator_windower_agreement_eval.2.2.2.2.2 (List.replicate 480000 (0:ℤ))
      (by rw [List.length_replicate])⟩,
   ⟨by rw [List.length_replicate],
    estimator_windower_agreement_eval.2.1 (List.replicate 96000 (0:ℤ))
      (by rw [List.length_replicate])⟩⟩

/-! ### C4: tail coverage at 15.0 s -/

/-- C4.  For any 480000-sample waveform (15.0 s at 32000 Hz) with
`window=5.0 s, hop=2.5 s`, the final window returned by
`create_fixed_windows` ends with the waveform's final sample: no data is
dropped at the tail. -/
theorem tail_coverage_15s (wf : List ℤ) (h : wf.length = 480000) :
    ((createFixedWindows wf 32000 5 (5/2)).getLast?).bind List.getLast? =
      wf.getLast? := by
  rw [createFixedWindows_std,
    core_caseC_eq wf 160000 80000 (by norm_num) (by omega)]
  have htail : (80000:ℕ) * ((wf.length - 160000) / 80000 + 1) < wf.length := by
    rw [h]; decide
  rw [if_pos htail, if_neg (by norm_num : ¬ (160000:ℕ) = 0),
    List.getLast?_concat, Option.some_bind, List.getLast?_drop,
    if_neg (by omega)]

/-- C4 witness. -/
theorem tail_coverage_15s_check :
    (List.replicate 480000 (7:ℤ)).length = 480000 ∧
      ((createFixedWindows (List.replicate 480000 (7:ℤ)) 32000 5 (5/2)).getLast?).bind
          List.getLast? =
        (List.replicate 480000 (7:ℤ)).getLast? :=
  ⟨by rw [List.length_replicate],
   tail_coverage_15s (List.replicate 480000 (7:ℤ)) (by rw [List.length_replicate])⟩

/-! ### C10: totality of the windower -/

/-- C10.  For positive `window_samples` and `hop_samples` the Case-3 loop
stabilizes within `waveform.length + 1` iterations (so the source's `while`
loop terminates), and `create_fixed_windows` returns a non-empty list of
windows, each of length exactly `window_samples`. -/
theorem windower_terminates_total (wf : List ℤ) (W H : ℕ) (hW : 0 < W) (hH : 0 < H) :
    (∀ fuel, wf.length + 1 ≤ fuel →
      whileLoop wf W H 0 fuel = whileLoop wf W H 0 (wf.length + 1)) ∧
    createFixedWindowsCore wf W H ≠ [] ∧
    ∀ w ∈ createFixedWindowsCore wf W H, w.length = W := by
  refine ⟨fun fuel hf =>
    whileLoop_congr_fuel wf W H hH fuel (wf.length + 1) 0 (by omega) (by omega),
    ?_, ?_⟩
  · by_cases hA : wf.length < W
    · rw [core_caseA wf W H hA]; simp
    · by_cases hB : wf.length ≤ W + H / 2
      · rw [core_caseB wf W H (by omega) hB]; simp
      · rw [core_caseC_eq wf W H hH (by omega)]
        intro hcontra
        rcases List.append_eq_nil.mp hcontra with ⟨hleft, -⟩
        have hlen : (whileLoop wf W H 0 (wf.length + 1)).1.length =
            (wf.length - W) / H + 1 := by
          rw [whileLoop_length wf W H hH (wf.length + 1) 0 (by omega),
            if_pos (by omega), Nat.sub_zero]
        rw [hleft] at hlen
        simp at hlen
  · intro w hw
    by_cases hA : wf.length < W
    · rw [core_caseA wf W H hA] at hw
      simp only [List.mem_singleton] at hw
      subst hw
      rw [List.length_append, List.length_replicate]
      omega
    · by_cases hB : wf.length ≤ W + H / 2
      · rw [core_caseB wf W H (by omega) hB] at hw
        simp only [List.mem_singleton] at hw
        subst hw
        rw [List.length_take]
        omega
      · rw [core_caseC_eq wf W H hH (by omega)] at hw
        rw [List.mem_append] at hw
        rcases hw with hw | hw
        · exact whileLoop_mem_length wf W H (wf.length + 1) 0 w hw
        · by_cases htail : H * ((wf.length - W) / H + 1) < wf.length
          · rw [if_pos htail, if_neg (by omega : ¬ W = 0)] at hw
            simp only [List.mem_singleton] at hw
            subst hw
            rw [List.length_drop]
            omega
          · rw [if_neg htail] at hw
            simp at hw

/-- C10 witness. -/
theorem windower_terminates_total_check :
    ((0:ℕ) < 2 ∧ (0:ℕ) < 1) ∧
      ((∀ fuel, ([9, 8, 7] : List ℤ).length + 1 ≤ fuel →
        whileLoop [9, 8, 7] 2 1 0 fuel =
          whileLoop [9, 8, 7] 2 1 0 (([9, 8, 7] : List ℤ).length + 1)) ∧
      createFixedWindowsCore [9, 8, 7] 2 1 ≠ [] ∧
      ∀ w ∈ createFixedWindowsCore [9, 8, 7] 2 1, w.length = 2) :=
  ⟨⟨by decide, by decide⟩,
   windower_terminates_total [9, 8, 7] 2 1 (by decide) (by decide)⟩

/-- C7 amended witness. -/
theorem sample_derivation_truncates_check :
    ((0:ℚ) ≤ 5 ∧ (0:ℚ) ≤ 5/2) ∧
      (windowSamplesOf 5 32000 = ⌊(5:ℚ) * ((32000:ℕ):ℚ)⌋ ∧
        hopSamplesOf (5/2) 32000 = ⌊(5/2:ℚ) * ((32000:ℕ):ℚ)⌋ ∧
        (∀ wf, createFixedWindows wf 32000 5 (5/2) =
          createFixedWindowsCore wf (windowSamplesOf 5 32000).toNat
            (hopSamplesOf (5/2) 32000).toNat) ∧
        (∀ d : ℚ, datasetNumWindows d 32000 5 (5/2) =
          estimatorNumWindows (datasetAudioSamples d 32000)
            (windowSamplesOf 5 32000).toNat (hopSamplesOf (5/2) 32000).toNat)) :=
  ⟨⟨by norm_num, by norm_num⟩,
   sample_derivation_truncates 5 (5/2) 32000 (by norm_num) (by norm_num)⟩

/-! ### Index builder: membership characterization -/

/-- A 3.0 s clip at the configured values is estimated at one window. -/
theorem datasetNumWindows_3s : datasetNumWindows 3 32000 5 (5/2) = 1 := by
  rw [datasetNumWindows_std 3 96000 (by norm_num)]
  decide

/-- The index-building loop emits no messages at all. -/
theorem buildIndexLog_eq_nil : ∀ rows : List Row, buildIndexLog rows = []
  | [] => rfl
  | _ :: rs => by rw [buildIndexLog, List.nil_append, buildIndexLog_eq_nil rs]

/-- A present row always contributes its ordinal-0 entry. -/
theorem mem_buildRowEntries_zero (present : String → Bool) (uw : Bool) (sr : ℕ)
    (ws hs : ℚ) (i : ℕ) (r : Row) (hp : present r.filename = true) :
    (i, 0) ∈ buildRowEntries present uw sr ws hs i r := by
  unfold buildRowEntries
  rw [if_pos hp]
  by_cases huw : uw = true
  · rw [if_pos huw]
    simp only [List.mem_map, List.mem_range]
    exact ⟨0, estimatorNumWindows_pos _ _ _, rfl⟩
  · rw [if_neg huw]
    simp

/-- Entries only come from present rows, at their own position. -/
theorem mem_buildRowEntries (present : String → Bool) (uw : Bool) (sr : ℕ)
    (ws hs : ℚ) (i : ℕ) (r : Row) (e : ℕ × ℕ)
    (he : e ∈ buildRowEntries present uw sr ws hs i r) :
    present r.filename = true ∧ e.1 = i := by
  unfold buildRowEntries at he
  by_cases hp : present r.filename = true
  · rw [if_pos hp] at he
    refine ⟨hp, ?_⟩
    by_cases huw : uw = true
    · rw [if_pos huw] at he
      simp only [List.mem_map, List.mem_range] at he
      obtain ⟨w, -, hw⟩ := he
      rw [← hw]
    · rw [if_neg huw] at he
      simp only [List.mem_singleton] at he
      rw [he]
  · rw [if_neg hp] at he
    simp at he

/-- Every entry of the index loop started at position `i` points at a
present row of the remaining row list. -/
theorem buildIndexAux_mem (present : String → Bool) (uw : Bool) (sr : ℕ) (ws hs : ℚ) :
    ∀ (rs : List Row) (i : ℕ) (e : ℕ × ℕ),
      e ∈ buildIndexAux present uw sr ws hs i rs →
      ∃ r, i ≤ e.1 ∧ rs.get? (e.1 - i) = some r ∧ present r.filename = true
  | [], i, e => by intro he; simp [buildIndexAux] at he
  | r :: rs, i, e => by
    intro he
    rw [buildIndexAux, List.mem_append] at he
    rcases he with he | he
    · obtain ⟨hp, h1⟩ := mem_buildRowEntries present uw sr ws hs i r e he
      exact ⟨r, by omega, by rw [h1, Nat.sub_self]; rfl, hp⟩
    · obtain ⟨r1, hle, hget, hp⟩ := buildIndexAux_mem present uw sr ws hs rs (i + 1) e he
      refine ⟨r1, by omega, ?_, hp⟩
      have hidx : e.1 - i = (e.1 - (i + 1)) + 1 := by omega
      rw [hidx]
      exact hget

/-- Conversely, every present row at position `j` of the remaining list
contributes its ordinal-0 entry. -/
theorem buildIndexAux_mem_zero (present : String → Bool) (uw : Bool) (sr : ℕ) (ws hs : ℚ) :
    ∀ (rs : List Row) (i j : ℕ) (r : Row), rs.get? j = some r →
      present r.filename = true →
      (i + j, 0) ∈ buildIndexAux present uw sr ws hs i rs
  | [], i, j, r => by intro hget hp; simp [List.get?] at hget
  | r0 :: rs, i, 0, r => by
    intro hget hp
    have hr : r0 = r := by simpa [List.get?] using hget
    subst hr
    rw [buildIndexAux, List.mem_append, Nat.add_zero]
    exact Or.inl (mem_buildRowEntries_zero present uw sr ws hs i r0 hp)
  | r0 :: rs, i, j + 1, r => by
    intro hget hp
    rw [buildIndexAux, List.mem_append]
    right
    have := buildIndexAux_mem_zero present uw sr ws hs rs (i + 1) j r hget hp
    have harith : i + (j + 1) = (i + 1) + j := by omega
    rw [harith]
    exact this

/-- The clip ids recorded in the built index are exactly the clip ids of the
subset rows whose backing file is present. -/
theorem mem_indexClipIds (rows : List Row) (present : String → Bool) (uw : Bool)
    (sr : ℕ) (ws hs : ℚ) (x : String) :
    x ∈ indexClipIds rows present uw sr ws hs ↔
      ∃ r ∈ rows, present r.filename = true ∧ r.clipId = x := by
  unfold indexClipIds buildIndex
  rw [List.mem_filterMap]
  constructor
  · rintro ⟨e, he, hmap⟩
    rw [Option.map_eq_some'] at hmap
    obtain ⟨r, hget, hid⟩ := hmap
    obtain ⟨r1, -, hget1, hp1⟩ := buildIndexAux_mem present uw sr ws hs rows 0 e he
    rw [Nat.sub_zero] at hget1
    rw [hget] at hget1
    injection hget1 with hget1
    subst hget1
    exact ⟨r, List.get?_mem hget, hp1, hid⟩
  · rintro ⟨r, hr, hp, hid⟩
    obtain ⟨j, hj⟩ := List.mem_iff_get?.mp hr
    refine ⟨(0 + j, 0), buildIndexAux_mem_zero present uw sr ws hs rows 0 j r hj hp, ?_⟩
    rw [Nat.zero_add, hj, Option.map_some', hid]

/-- Filtering a list by a predicate and by its negation partitions it. -/
theorem length_filter_split (p : Row → Bool) :
    ∀ rows : List Row,
      (rows.filter p).length + (rows.filter (fun r => ! p r)).length = rows.length
  | [] => rfl
  | r :: rs => by
    have ih := length_filter_split p rs
    by_cases h : p r = true
    · simp [List.filter_cons, h]
      omega
    · have h' : p r = false := by
        cases hpr : p r
        · rfl
        · exact absurd hpr h
      simp [List.filter_cons, h']
      omega

/-! ### C8: index completeness and (absent) skip accounting -/

/-- C8 counterexample.  (a) Two catalogued rows sharing a clip id, both
files present (`N = 2, M = 0`): the built index's set of distinct clip ids
has size 1, not `N - M = 2`.  (b) A subset with one missing file
(`M = 1`): the index builder emits no skip report at all (its loop prints
nothing and keeps no counter), so no reported skip count equals `M`. -/
theorem skip_accounting_cex :
    (indexClipIds [⟨"XC1", "amecro", "a.wav", 3⟩, ⟨"XC1", "amerob", "b.wav", 3⟩]
        (fun _ => true) true 32000 5 (5/2)).dedup.length = 1 ∧
    (buildIndexLog [⟨"XC2", "norcar", "gone.wav", 3⟩] = [] ∧
      (([⟨"XC2", "norcar", "gone.wav", 3⟩] : List Row).filter
          (fun r => ! (fun _ : String => false) r.filename)).length = 1) := by
  refine ⟨?_, buildIndexLog_eq_nil _, by decide⟩
  have hidx : buildIndex [⟨"XC1", "amecro", "a.wav", 3⟩, ⟨"XC1", "amerob", "b.wav", 3⟩]
      (fun _ => true) true 32000 5 (5/2) = [(0, 0), (1, 0)] := by
    unfold buildIndex
    rw [buildIndexAux, buildIndexAux, buildIndexAux]
    unfold buildRowEntries
    simp [datasetNumWindows_3s]
    rfl
  unfold indexClipIds
  rw [hidx]
  decide

/-- C8 amended.  For a subset whose rows carry pairwise-distinct clip ids,
the built index has no entries for absent clips (every entry points at a
present row), the set of distinct clip ids covered by the index has size
`N - M` (`N` rows, `M` of them with absent files), and the builder reports
nothing: the `M` skipped rows are silently dropped (no skip count is logged,
unlike `prepare_split`). -/
theorem index_completeness_of_nodup (rows : List Row) (present : String → Bool)
    (uw : Bool) (sr : ℕ) (ws hs : ℚ) (hnd : (rows.map Row.clipId).Nodup) :
    (∀ e ∈ buildIndex rows present uw sr ws hs,
      ∃ r, rows.get? e.1 = some r ∧ present r.filename = true) ∧
    (indexClipIds rows present uw sr ws hs).dedup.length =
      rows.length - (rows.filter (fun r => ! present r.filename)).length ∧
    buildIndexLog rows = [] := by
  refine ⟨?_, ?_, buildIndexLog_eq_nil rows⟩
  · intro e he
    obtain ⟨r, -, hget, hp⟩ := buildIndexAux_mem present uw sr ws hs rows 0 e he
    rw [Nat.sub_zero] at hget
    exact ⟨r, hget, hp⟩
  · have hnd2 : ((rows.filter (fun r => present r.filename)).map Row.clipId).Nodup :=
      List.Nodup.sublist (List.Sublist.map Row.clipId (List.filter_sublist rows)) hnd
    have hperm : (indexClipIds rows present uw sr ws hs).dedup.Perm
        ((rows.filter (fun r => present r.filename)).map Row.clipId) := by
      rw [List.perm_ext_iff_of_nodup (List.nodup_dedup _) hnd2]
      intro x
      rw [List.mem_dedup, mem_indexClipIds]
      simp only [List.mem_map, List.mem_filter]
      constructor
      · rintro ⟨r, hr, hp, hid⟩
        exact ⟨r, ⟨hr, hp⟩, hid⟩
      · rintro ⟨r, ⟨hr, hp⟩, hid⟩
        exact ⟨r, hr, hp, hid⟩
    rw [hperm.length_eq, List.length_map]
    have hsplit := length_filter_split (fun r => present r.filename) rows
    omega

/-- C8 amended witness: two rows with distinct clip ids, one backing file
missing (`N = 2, M = 1`); the index covers exactly `1 = N - M` distinct
clip id and nothing is reported. -/
theorem index_completeness_check :
    ((([⟨"XC1", "amecro", "a.wav", 3⟩, ⟨"XC3", "amerob", "missing.wav", 3⟩] :
        List Row).map Row.clipId).Nodup) ∧
    ((∀ e ∈ buildIndex [⟨"XC1", "amecro", "a.wav", 3⟩, ⟨"XC3", "amerob", "missing.wav", 3⟩]
        (fun s => s == "a.wav") true 32000 5 (5/2),
      ∃ r, ([⟨"XC1", "amecro", "a.wav", 3⟩, ⟨"XC3", "amerob", "missing.wav", 3⟩] :
          List Row).get? e.1 = some r ∧ (r.filename == "a.wav") = true) ∧
    (indexClipIds [⟨"XC1", "amecro", "a.wav", 3⟩, ⟨"XC3", "amerob", "missing.wav", 3⟩]
        (fun s => s == "a.wav") true 32000 5 (5/2)).dedup.length =
      ([⟨"XC1", "amecro", "a.wav", 3⟩, ⟨"XC3", "amerob", "missing.wav", 3⟩] :
          List Row).length -
        (([⟨"XC1", "amecro", "a.wav", 3⟩, ⟨"XC3", "amerob", "missing.wav", 3⟩] :
            List Row).filter (fun r => ! (r.filename == "a.wav"))).length ∧
    buildIndexLog [⟨"XC1", "amecro", "a.wav", 3⟩, ⟨"XC3", "amerob", "missing.wav", 3⟩] = []) :=
  ⟨by decide,
   index_completeness_of_nodup
     [⟨"XC1", "amecro", "a.wav", 3⟩, ⟨"XC3", "amerob", "missing.wav", 3⟩]
     (fun s => s == "a.wav") true 32000 5 (5/2) (by decide)⟩

/-! ### C9: species vocabulary -/

/-- `pandas.unique` preserves exactly the members. -/
theorem pdUnique_mem : ∀ (l : List String) (x : String), x ∈ pdUnique l ↔ x ∈ l
  | [], x => by simp [pdUnique]
  | a :: l, x => by
    rw [pdUnique]
    by_cases hxa : x = a
    · subst hxa; simp
    · simp only [List.mem_cons, hxa, false_or]
      rw [pdUnique_mem (l.filter fun b => b != a) x]
      simp [List.mem_filter, hxa]
termination_by l _ => l.length
decreasing_by simpa using Nat.lt_succ_of_le (List.length_filter_le _ _)

/-- `pandas.unique` returns distinct values. -/
theorem pdUnique_nodup : ∀ l : List String, (pdUnique l).Nodup
  | [] => by simp [pdUnique]
  | a :: l => by
    rw [pdUnique, List.nodup_cons]
    refine ⟨?_, pdUnique_nodup _⟩
    intro ha
    rw [pdUnique_mem] at ha
    simp [List.mem_filter] at ha
termination_by l => l.length
decreasing_by simpa using Nat.lt_succ_of_le (List.length_filter_le _ _)

/-- C9.  The species vocabulary is the sorted deduplicated sequence of the
species codes over all subset rows (missing-file rows included, since it is
computed before the file check): it is sorted, has no duplicates (so
positions `0..K-1` biject with the species), contains exactly the species
codes occurring in the rows, and is invariant under reordering the rows —
building it twice from row permutations yields identical mappings. -/
theorem vocabulary_sorted_stable (rows rowsB : List Row) (hperm : rows.Perm rowsB) :
    (speciesList rows).Sorted (fun a b => a ≤ b) ∧
    (speciesList rows).Nodup ∧
    (∀ s, s ∈ speciesList rows ↔ s ∈ rows.map Row.speciesCode) ∧
    speciesList rows = speciesList rowsB := by
  have hsor : ∀ rs : List Row, (speciesList rs).Sorted (fun a b => a ≤ b) :=
    fun rs => List.sorted_insertionSort _ _
  have hmem : ∀ (rs : List Row) (s : String),
      s ∈ speciesList rs ↔ s ∈ rs.map Row.speciesCode := by
    intro rs s
    unfold speciesList
    rw [(List.perm_insertionSort _ _).mem_iff, pdUnique_mem]
  have hnd : ∀ rs : List Row, (speciesList rs).Nodup := fun rs =>
    ((List.perm_insertionSort _ _).nodup_iff).mpr (pdUnique_nodup _)
  refine ⟨hsor rows, hnd rows, hmem rows, ?_⟩
  have hp : (speciesList rows).Perm (speciesList rowsB) := by
    rw [List.perm_ext_iff_of_nodup (hnd rows) (hnd rowsB)]
    intro s
    rw [hmem rows s, hmem rowsB s]
    exact (hperm.map Row.speciesCode).mem_iff
  exact List.eq_of_perm_of_sorted hp (hsor rows) (hsor rowsB)

/-- C9 witness: the same two rows in both orders produce the same sorted
vocabulary. -/
theorem vocabulary_sorted_stable_check :
    (([⟨"x1", "robin", "f1", 3⟩, ⟨"x2", "crow", "f2", 3⟩] : List Row).Perm
        [⟨"x2", "crow", "f2", 3⟩, ⟨"x1", "robin", "f1", 3⟩]) ∧
    ((speciesList [⟨"x1", "robin", "f1", 3⟩, ⟨"x2", "crow", "f2", 3⟩]).Sorted
        (fun a b => a ≤ b) ∧
      (speciesList [⟨"x1", "robin", "f1", 3⟩, ⟨"x2", "crow", "f2", 3⟩]).Nodup ∧
      (∀ s, s ∈ speciesList [⟨"x1", "robin", "f1", 3⟩, ⟨"x2", "crow", "f2", 3⟩] ↔
        s ∈ ([⟨"x1", "robin", "f1", 3⟩, ⟨"x2", "crow", "f2", 3⟩] : List Row).map
          Row.speciesCode) ∧
      speciesList [⟨"x1", "robin", "f1", 3⟩, ⟨"x2", "crow", "f2", 3⟩] =
        speciesList [⟨"x2", "crow", "f2", 3⟩, ⟨"x1", "robin", "f1", 3⟩]) :=
  ⟨List.Perm.swap _ _ _,
   vocabulary_sorted_stable _ _ (List.Perm.swap _ _ _)⟩

end BirdPam
